import Mathlib

/-!
Shallow embedding of the devTinder backend's connection-lifecycle logic:
the account and connection-request data model (src/model/user.js,
src/model/connectionRequest.js), the send and review operations
(src/routes/requests.js, the request-review handler), the feed and
connection-listing queries (src/routes/user.js), the auth middleware
(src/middlewares/auth.js), the profile router's routes and the
PATCH /user/:userId update check (src/app.js / profile router).
Documents are lists; Mongo `findOne`/`find` become `List.find?`/`List.filter`
in insertion order.
-/

/-- Enumerated status of a connection request
(`connectionRequestSchema.status` enum). -/
inductive RequestStatus
  | ignored
  | interested
  | accepted
  | rejected
deriving DecidableEq

/-- A user document (the fields of `userSchema` that the claims touch;
`password` is the stored credential hash). -/
structure Account where
  id : Nat
  firstName : String := ""
  lastName : String := ""
  emailId : String := ""
  password : String := ""
  age : Option Int := none
  gender : Option String := none
  photoUrl : String := ""
  about : String := ""
  skills : List String := []
deriving DecidableEq

/-- A connection-request document: a directed edge with a status. -/
structure ConnectionRequest where
  id : Nat
  senderId : Nat
  receiverId : Nat
  status : RequestStatus
deriving DecidableEq

/-- The persistent store: the two collections. -/
structure DB where
  users : List Account
  requests : List ConnectionRequest
deriving DecidableEq

/-- `allowedStatus` of POST /request/send/:status/:receiverId. -/
def sendAllowedStatus : List String := ["interested", "ignored"]

/-- `allowedStatus` of POST /request/review/:status/:requestId. -/
def reviewAllowedStatus : List String := ["accepted", "rejected"]

/-- Parse a status path parameter into the schema enum (only applied
after membership in an allow-list has been checked). -/
def parseStatus : String → RequestStatus
  | "ignored" => .ignored
  | "interested" => .interested
  | "accepted" => .accepted
  | _ => .rejected

/-- The `$or` filter of the duplicate check in the send handler:
a record matches when it links the pair in either direction. -/
def pairMatches (senderId receiverId : Nat) (r : ConnectionRequest) : Bool :=
  (r.senderId == senderId && r.receiverId == receiverId) ||
  (r.senderId == receiverId && r.receiverId == senderId)

/-- Outcomes of the send handler's failure paths: invalid status param,
absent receiver (`User doesn't exist in database`), duplicate
(`Connection Request Already Present`), and the pre-save hook's
`Cannot send connection to yourself`. -/
inductive SendError
  | invalidStatus
  | receiverNotFound
  | conflict
  | selfReference
deriving DecidableEq

/-- POST /request/send/:status/:receiverId (src/routes/requests.js).
Checks, in response order: status allow-list; receiver existence;
existing request in either direction; then `save()` runs the pre-save
hook which rejects sender = receiver, and otherwise appends the new
document. -/
def sendRequest (db : DB) (senderId receiverId : Nat) (status : String) (newId : Nat) :
    Except SendError (DB × ConnectionRequest) :=
  if status ∈ sendAllowedStatus then
    match db.users.find? (fun u => u.id == receiverId) with
    | none => .error .receiverNotFound
    | some _ =>
      if (db.requests.find? (pairMatches senderId receiverId)).isSome then
        .error .conflict
      else if senderId == receiverId then
        .error .selfReference
      else
        .ok ({ db with
                requests := db.requests ++ [⟨newId, senderId, receiverId, parseStatus status⟩] },
             ⟨newId, senderId, receiverId, parseStatus status⟩)
  else .error .invalidStatus

/-- The store state after a send call: unchanged when the handler errors. -/
def dbAfterSend (db : DB) (senderId receiverId : Nat) (status : String) (newId : Nat) : DB :=
  match sendRequest db senderId receiverId status newId with
  | .ok (db2, _) => db2
  | .error _ => db

/-- Failure paths of the review handler: invalid status param, no matching
pending record (`Connection Request doesn't exists.`), and the pre-save
hook firing on a (hypothetical) self-loop record. -/
inductive ReviewError
  | invalidStatus
  | notFound
  | selfReference
deriving DecidableEq

/-- POST /request/review/:status/:requestId: `findOne` on
`{_id, receiverId: caller, status: "interested"}`, then set `status`
and `save()` (which re-runs the pre-save self-reference hook and
writes the document back by its `_id`). -/
def reviewRequest (db : DB) (reviewerId : Nat) (status : String) (requestId : Nat) :
    Except ReviewError (DB × ConnectionRequest) :=
  if status ∈ reviewAllowedStatus then
    match db.requests.find? (fun r =>
        r.id == requestId && r.receiverId == reviewerId &&
        decide (r.status = RequestStatus.interested)) with
    | none => .error .notFound
    | some r0 =>
      if r0.senderId == r0.receiverId then .error .selfReference
      else
        .ok ({ db with
                requests := db.requests.map (fun q =>
                  if q.id == r0.id then { r0 with status := parseStatus status } else q) },
             { r0 with status := parseStatus status })
  else .error .invalidStatus

/-- Invariant maintained by the pre-save hook: no stored request is a
self-loop. -/
def NoSelfLoops (db : DB) : Prop :=
  ∀ r ∈ db.requests, r.senderId ≠ r.receiverId

/-- The invariant enforced by the send handler's duplicate check: at most
one stored request per unordered pair of accounts. -/
def PairUnique (db : DB) : Prop :=
  ∀ r1 ∈ db.requests, ∀ r2 ∈ db.requests,
    ((r1.senderId = r2.senderId ∧ r1.receiverId = r2.receiverId) ∨
     (r1.senderId = r2.receiverId ∧ r1.receiverId = r2.senderId)) → r1 = r2

/-- The `USER_SAFE_DATA` projection of src/routes/user.js:
`firstName lastName age gender photoUrl` (plus `_id`, which Mongo always
returns). -/
structure SafeAccount where
  id : Nat
  firstName : String
  lastName : String
  age : Option Int
  gender : Option String
  photoUrl : String
deriving DecidableEq

/-- Apply the safe-field projection to a user document. -/
def safeProject (u : Account) : SafeAccount :=
  ⟨u.id, u.firstName, u.lastName, u.age, u.gender, u.photoUrl⟩

/-- The one runtime failure the feed's limit line can raise: the
identifier `limitl` on `limit = limit > 50 ? 10 : limitl` is not
declared, so evaluating that branch throws a ReferenceError. -/
inductive FeedError
  | referenceError
deriving DecidableEq

/-- `let limit = parseInt(req.query.limit); limit = limit > 50 ? 10 : limitl`
(src/routes/user.js line 60). A missing parameter parses to NaN and
`NaN > 50` is false, so both the missing case and every limit ≤ 50 hit
the undeclared `limitl` and throw; a limit above 50 becomes 10. -/
def effectiveLimit : Option Int → Except FeedError Int
  | some l => if l > 50 then .ok 10 else .error .referenceError
  | none => .error .referenceError

/-- `const page = parseInt(req.query.page) || 1`: a missing or zero
page falls back to 1. -/
def effectivePage : Option Int → Int
  | some p => if p = 0 then 1 else p
  | none => 1

/-- The `hideUsersFromFeed` set: every sender id and receiver id taken
from the requests that involve the caller on either side. -/
def hideUsersFromFeed (db : DB) (callerId : Nat) : List Nat :=
  (db.requests.filter (fun r => r.senderId == callerId || r.receiverId == callerId)).flatMap
    (fun r => [r.senderId, r.receiverId])

/-- The user query of GET /user/feed: ids not hidden and not the caller,
safe-projected, with `skip` then `limit` applied. -/
def feedQuery (db : DB) (callerId skip lim : Nat) : List SafeAccount :=
  (((db.users.filter (fun u =>
      !((hideUsersFromFeed db callerId).contains u.id) && u.id != callerId)).drop skip).take
    lim).map safeProject

/-- GET /user/feed (src/routes/user.js): resolve the page and limit
parameters, compute `skip = (page-1)*limit`, and run the exclusion
query. The limit line throws for any request whose limit parameter is
not above 50 (see `effectiveLimit`). -/
def feed (db : DB) (callerId : Nat) (page limitParam : Option Int) :
    Except FeedError (List SafeAccount) :=
  match effectiveLimit limitParam with
  | .error e => .error e
  | .ok lim =>
    feedQuery db callerId ((effectivePage page - 1) * lim).toNat lim.toNat |> .ok

/-- The per-row branch of GET /user/requests/connections: if the caller
is the sender, return the receiver, else the sender. -/
def otherParty (callerId : Nat) (r : ConnectionRequest) : Nat :=
  if r.senderId == callerId then r.receiverId else r.senderId

/-- GET /user/requests/connections: accepted requests touching the
caller on either side, each mapped to the other party (identified here
by account id; the handler returns the populated safe projection of
that account). No deduplication is applied. -/
def listConnections (db : DB) (callerId : Nat) : List Nat :=
  (db.requests.filter (fun r =>
      (r.receiverId == callerId && decide (r.status = RequestStatus.accepted)) ||
      (r.senderId == callerId && decide (r.status = RequestStatus.accepted)))).map
    (otherParty callerId)

/-- The state of the bearer token cookie as the middleware observes it:
absent, failing signature verification, expired, or valid and naming an
account id. -/
inductive TokenState
  | missing
  | invalid
  | expired
  | validFor (uid : Nat)
deriving DecidableEq

/-- The middleware's single failure mode: any throw inside `userAuth`
is caught and surfaced as a 400 error response. -/
inductive AuthError
  | authFailure
deriving DecidableEq

/-- `userAuth` (src/middlewares/auth.js): missing token throws, invalid
or expired token makes `jwt.verify` throw, and a verified id not found
in the user collection throws; only a verified id of a stored account
passes that account through to the handler. -/
def userAuth (db : DB) (tok : TokenState) : Except AuthError Account :=
  match tok with
  | .missing => .error .authFailure
  | .invalid => .error .authFailure
  | .expired => .error .authFailure
  | .validFor uid =>
    match db.users.find? (fun u => u.id == uid) with
    | none => .error .authFailure
    | some u => .ok u

/-- HTTP verbs used by the routers. -/
inductive HttpVerb
  | get
  | post
  | patch
  | delete
deriving DecidableEq

/-- One registered route: verb, path, and whether the `userAuth`
middleware is in its handler chain. -/
structure RouteEntry where
  verb : HttpVerb
  path : String
  usesUserAuth : Bool
deriving DecidableEq

/-- The request router's routes (src/routes/requests.js and the review
handler): both are registered with `userAuth`. -/
def requestRouterRoutes : List RouteEntry :=
  [⟨.post, "/request/send/:status/:receiverId", true⟩,
   ⟨.post, "/request/review/:status/:requestId", true⟩]

/-- The user router's routes (src/routes/user.js): all registered with
`userAuth`. -/
def userRouterRoutes : List RouteEntry :=
  [⟨.get, "/user/requests/received", true⟩,
   ⟨.get, "/user/requests/connections", true⟩,
   ⟨.get, "/user/feed", true⟩]

/-- The profile router's routes: `DELETE /user` and `PATCH /user/:userId`
are registered without the `userAuth` middleware. -/
def profileRouterRoutes : List RouteEntry :=
  [⟨.get, "/user", true⟩,
   ⟨.get, "/profile", true⟩,
   ⟨.get, "/feed", true⟩,
   ⟨.delete, "/user", false⟩,
   ⟨.patch, "/user/:userId", false⟩,
   ⟨.patch, "/profile/edit", true⟩,
   ⟨.patch, "/profile/password", true⟩]

/-- A JSON field value in an update payload (skills are arrays of
strings in the schema). -/
inductive FieldValue
  | strv (s : String)
  | numv (n : Int)
  | arrv (elems : List String)
deriving DecidableEq

/-- `ALLOWED_UPDATES` of PATCH /user/:userId — note it does not contain
`skills`. -/
def allowedUpdates : List String := ["photoUrl", "about", "gender", "age"]

/-- How PATCH /user/:userId can end before the store write. -/
inductive UpdateOutcome
  | ok
  | updateNotAllowed
  | skillsTooMany
  | typeError
deriving DecidableEq

/-- Property access `data["skills"]`. -/
def lookupField (key : String) (data : List (String × FieldValue)) : Option FieldValue :=
  (data.find? (fun kv => kv.1 == key)).map (fun kv => kv.2)

/-- The validation of PATCH /user/:userId: every payload key must be in
`ALLOWED_UPDATES`, then `data?.skills.length > 10` is evaluated.
When `skills` is absent that expression reads `.length` of `undefined`
and throws a TypeError (`data?.` only guards `data` itself); a string
has a JS `.length`, and `.length` of a number is `undefined`, which
compares false. -/
def patchUserCheck (data : List (String × FieldValue)) : UpdateOutcome :=
  if data.all (fun kv => allowedUpdates.contains kv.1) then
    match lookupField "skills" data with
    | none => .typeError
    | some (.arrv xs) => if xs.length > 10 then .skillsTooMany else .ok
    | some (.strv s) => if s.length > 10 then .skillsTooMany else .ok
    | some (.numv _) => .ok
  else .updateNotAllowed

/-- `allowedFields` of `validateEditProfileData` (utils/validation):
the allow-list the PATCH /profile/edit handler checks payload keys
against; it has no bound on the skills list. -/
def editAllowedFields : List String :=
  ["firstName", "lastName", "age", "about", "photoUrl", "skills"]

/-- `validateEditProfileData`: every payload key must be allowed. -/
def validateEditProfileData (payloadKeys : List String) : Bool :=
  payloadKeys.all (fun k => editAllowedFields.contains k)

/-- GET /feed on the profile router: `User.find({})` — every user
document, full fields, no exclusion and no pagination; the
authenticated caller is ignored. -/
def profileFeed (db : DB) (_caller : Account) : List Account :=
  db.users

/-- A sample account used in concrete witnesses. -/
def acct1 : Account := { id := 1 }

/-- A second sample account used in concrete witnesses. -/
def acct2 : Account := { id := 2 }

/-- A third sample account, unrelated to the others. -/
def acct3 : Account := { id := 3 }

/-- An errored send leaves the store unchanged. -/
lemma dbAfterSend_of_error {db : DB} {s r : Nat} {status : String} {n : Nat} {e : SendError}
    (h : sendRequest db s r status n = .error e) :
    dbAfterSend db s r status n = db := by
  simp [dbAfterSend, h]

/-- A receiver present in the user collection makes the handler's
`findById` lookup succeed. -/
lemma users_find?_isSome {db : DB} {b : Nat} (hb : ∃ u ∈ db.users, u.id = b) :
    (db.users.find? (fun u => u.id == b)).isSome = true := by
  rw [List.find?_isSome]
  obtain ⟨u, hu, hid⟩ := hb
  exact ⟨u, hu, by simp [hid]⟩

/-- When a record linking the pair in either direction is stored, the
duplicate check finds one. -/
lemma requests_conflict_isSome {db : DB} {a b : Nat} {r0 : ConnectionRequest}
    (hr0 : r0 ∈ db.requests)
    (hpair : (r0.senderId = a ∧ r0.receiverId = b) ∨ (r0.senderId = b ∧ r0.receiverId = a)) :
    (db.requests.find? (pairMatches a b)).isSome = true := by
  rw [List.find?_isSome]
  refine ⟨r0, hr0, ?_⟩
  simp only [pairMatches, Bool.or_eq_true, Bool.and_eq_true, beq_iff_eq]
  rcases hpair with ⟨h1, h2⟩ | ⟨h1, h2⟩
  · exact Or.inl ⟨h1, h2⟩
  · exact Or.inr ⟨h1, h2⟩

/-- The duplicate check before the receiver lookup succeeds forces the
conflict response. -/
lemma sendRequest_conflict_of {db : DB} {s r : Nat} {status : String} {n : Nat}
    (hstatus : status ∈ sendAllowedStatus)
    (hrecv : (db.users.find? (fun u => u.id == r)).isSome = true)
    (hex : (db.requests.find? (pairMatches s r)).isSome = true) :
    sendRequest db s r status n = .error .conflict := by
  obtain ⟨u, hu⟩ := Option.isSome_iff_exists.mp hrecv
  simp [sendRequest, hstatus, hu, hex]

/-- Claim C1: for an authenticated account `a` (present in the user
collection) and a valid status parameter, in a store satisfying the
no-self-loop invariant, sending a request to oneself fails with the
self-reference error and creates no connection-request document. -/
theorem send_self_reference (db : DB) (a : Nat) (status : String) (newId : Nat)
    (hstatus : status ∈ sendAllowedStatus)
    (hacct : ∃ u ∈ db.users, u.id = a)
    (hinv : NoSelfLoops db) :
    sendRequest db a a status newId = .error .selfReference ∧
    dbAfterSend db a a status newId = db := by
  have hfind := users_find?_isSome hacct
  obtain ⟨u, hu⟩ := Option.isSome_iff_exists.mp hfind
  have hex : db.requests.find? (pairMatches a a) = none := by
    rw [List.find?_eq_none]
    intro r hr
    simp only [pairMatches, Bool.or_eq_true, Bool.and_eq_true, beq_iff_eq, not_or]
    constructor <;> · rintro ⟨h1, h2⟩; exact hinv r hr (h1.trans h2.symm)
  have hmain : sendRequest db a a status newId = .error .selfReference := by
    simp [sendRequest, hstatus, hu, hex]
  exact ⟨hmain, dbAfterSend_of_error hmain⟩

/-- Claim C1 witness. -/
theorem send_self_reference_witness :
    sendRequest ⟨[acct1, acct2], []⟩ 1 1 "interested" 7 = .error .selfReference ∧
    dbAfterSend ⟨[acct1, acct2], []⟩ 1 1 "interested" 7 = ⟨[acct1, acct2], []⟩ :=
  send_self_reference ⟨[acct1, acct2], []⟩ 1 "interested" 7 (by decide)
    ⟨acct1, by simp, rfl⟩ (by intro r hr; simp at hr)

/-- Claim C2: for accounts `a` and `b` both present in the user
collection, when some record already links the pair in either
direction (in any status), a new send in either direction fails with
the conflict response and the store is unchanged. -/
theorem send_conflict (db : DB) (a b : Nat) (r0 : ConnectionRequest) (s1 s2 : String)
    (n1 n2 : Nat)
    (hs1 : s1 ∈ sendAllowedStatus) (hs2 : s2 ∈ sendAllowedStatus)
    (hr0 : r0 ∈ db.requests)
    (hpair : (r0.senderId = a ∧ r0.receiverId = b) ∨ (r0.senderId = b ∧ r0.receiverId = a))
    (ha : ∃ u ∈ db.users, u.id = a) (hb : ∃ u ∈ db.users, u.id = b) :
    sendRequest db a b s1 n1 = .error .conflict ∧
    sendRequest db b a s2 n2 = .error .conflict ∧
    dbAfterSend db a b s1 n1 = db ∧ dbAfterSend db b a s2 n2 = db := by
  have hab : sendRequest db a b s1 n1 = .error .conflict :=
    sendRequest_conflict_of hs1 (users_find?_isSome hb) (requests_conflict_isSome hr0 hpair)
  have hba : sendRequest db b a s2 n2 = .error .conflict :=
    sendRequest_conflict_of hs2 (users_find?_isSome ha)
      (requests_conflict_isSome hr0 (hpair.symm))
  exact ⟨hab, hba, dbAfterSend_of_error hab, dbAfterSend_of_error hba⟩

/-- Claim C2 witness. -/
theorem send_conflict_witness :
    sendRequest ⟨[acct1, acct2], [⟨7, 1, 2, .ignored⟩]⟩ 1 2 "interested" 8 =
      .error .conflict ∧
    sendRequest ⟨[acct1, acct2], [⟨7, 1, 2, .ignored⟩]⟩ 2 1 "interested" 9 =
      .error .conflict ∧
    dbAfterSend ⟨[acct1, acct2], [⟨7, 1, 2, .ignored⟩]⟩ 1 2 "interested" 8 =
      ⟨[acct1, acct2], [⟨7, 1, 2, .ignored⟩]⟩ ∧
    dbAfterSend ⟨[acct1, acct2], [⟨7, 1, 2, .ignored⟩]⟩ 2 1 "interested" 9 =
      ⟨[acct1, acct2], [⟨7, 1, 2, .ignored⟩]⟩ :=
  send_conflict ⟨[acct1, acct2], [⟨7, 1, 2, .ignored⟩]⟩ 1 2 ⟨7, 1, 2, .ignored⟩
    "interested" "interested" 8 9 (by decide) (by decide) (by simp)
    (Or.inl ⟨rfl, rfl⟩) ⟨acct1, by simp, rfl⟩ ⟨acct2, by simp, rfl⟩

/-- A status that passed the review allow-list parses to a terminal
status, never back to `interested`. -/
lemma parseStatus_review_ne_interested {status : String} (h : status ∈ reviewAllowedStatus) :
    parseStatus status ≠ RequestStatus.interested := by
  have h2 : status = "accepted" ∨ status = "rejected" := by
    simpa [reviewAllowedStatus] using h
  rcases h2 with rfl | rfl <;> decide

/-- Claim C3: with a valid requested status and the no-self-loop
invariant, the review operation succeeds exactly when a stored request
has the given id, the caller as receiver, and status `interested`; in
every other case it answers not-found; and on success the record gets
the requested terminal status, so a second review of the same request
id (by any caller, with any valid status) answers not-found. -/
theorem review_spec (db : DB) (reviewer : Nat) (status : String) (requestId : Nat)
    (hstatus : status ∈ reviewAllowedStatus)
    (hinv : NoSelfLoops db) :
    ((∃ out, reviewRequest db reviewer status requestId = .ok out) ↔
      ∃ r ∈ db.requests, r.id = requestId ∧ r.receiverId = reviewer ∧
        r.status = RequestStatus.interested) ∧
    ((¬ ∃ r ∈ db.requests, r.id = requestId ∧ r.receiverId = reviewer ∧
        r.status = RequestStatus.interested) →
      reviewRequest db reviewer status requestId = .error .notFound) ∧
    (∀ db2 r2, reviewRequest db reviewer status requestId = .ok (db2, r2) →
      r2.status = parseStatus status ∧
      ∀ reviewer2 status2, status2 ∈ reviewAllowedStatus →
        reviewRequest db2 reviewer2 status2 requestId = .error .notFound) := by
  have hterm := parseStatus_review_ne_interested hstatus
  cases hfind : db.requests.find? (fun r =>
      r.id == requestId && r.receiverId == reviewer &&
      decide (r.status = RequestStatus.interested)) with
  | none =>
    have herr : reviewRequest db reviewer status requestId = .error .notFound := by
      simp [reviewRequest, hstatus, hfind]
    have hnone : ¬ ∃ r ∈ db.requests, r.id = requestId ∧ r.receiverId = reviewer ∧
        r.status = RequestStatus.interested := by
      rw [List.find?_eq_none] at hfind
      rintro ⟨r, hr, h1, h2, h3⟩
      exact hfind r hr (by simp [h1, h2, h3])
    refine ⟨⟨?_, fun h => absurd h hnone⟩, fun _ => herr, ?_⟩
    · rintro ⟨out, hout⟩
      rw [herr] at hout
      cases hout
    · intro db2 r2 hok
      rw [herr] at hok
      cases hok
  | some r0 =>
    have hmem : r0 ∈ db.requests := List.mem_of_find?_eq_some hfind
    have hprops := List.find?_some hfind
    simp only [Bool.and_eq_true, beq_iff_eq, decide_eq_true_eq] at hprops
    obtain ⟨⟨hid, hrecv⟩, hstat0⟩ := hprops
    have hns : (r0.senderId == r0.receiverId) = false := by
      simp only [beq_eq_false_iff_ne, ne_eq]
      exact hinv r0 hmem
    have hokeq : reviewRequest db reviewer status requestId =
        .ok ({ db with requests := db.requests.map (fun q =>
                if q.id == r0.id then { r0 with status := parseStatus status } else q) },
             { r0 with status := parseStatus status }) := by
      simp [reviewRequest, hstatus, hfind, hns]
    refine ⟨⟨fun _ => ⟨r0, hmem, hid, hrecv, hstat0⟩, fun _ => ⟨_, hokeq⟩⟩,
      fun hne => absurd ⟨r0, hmem, hid, hrecv, hstat0⟩ hne, ?_⟩
    intro db2 r2 hok
    rw [hokeq] at hok
    have hpair := Except.ok.inj hok
    have hdb2 : db2 = { db with requests := db.requests.map (fun q =>
        if q.id == r0.id then { r0 with status := parseStatus status } else q) } :=
      (congrArg Prod.fst hpair).symm
    have hr2 : r2 = { r0 with status := parseStatus status } :=
      (congrArg Prod.snd hpair).symm
    subst hdb2
    subst hr2
    refine ⟨rfl, ?_⟩
    intro reviewer2 status2 hs2
    have hnone2 : (db.requests.map (fun q =>
        if q.id == r0.id then { r0 with status := parseStatus status } else q)).find?
          (fun r => r.id == requestId && r.receiverId == reviewer2 &&
            decide (r.status = RequestStatus.interested)) = none := by
      rw [List.find?_eq_none]
      intro q hq
      rw [List.mem_map] at hq
      obtain ⟨q0, hq0, rfl⟩ := hq
      by_cases hcase : (q0.id == r0.id) = true
      · rw [if_pos hcase]
        simp only [Bool.and_eq_true, beq_iff_eq, decide_eq_true_eq]
        rintro ⟨-, h3⟩
        exact hterm h3
      · rw [if_neg hcase]
        simp only [Bool.and_eq_true, beq_iff_eq, decide_eq_true_eq]
        rintro ⟨⟨h1, -⟩, -⟩
        exact absurd (by simp [h1, hid]) hcase
    unfold reviewRequest
    rw [if_pos hs2]
    rw [show ({ db with requests := db.requests.map (fun q =>
        if q.id == r0.id then { r0 with status := parseStatus status } else q) } : DB).requests =
        db.requests.map (fun q =>
          if q.id == r0.id then { r0 with status := parseStatus status } else q) from rfl,
      hnone2]

/-- Claim C3 witness: an already-accepted record cannot be reviewed
again. -/
theorem review_spec_witness :
    reviewRequest ⟨[acct1, acct2], [⟨7, 1, 2, .accepted⟩]⟩ 2 "accepted" 7 =
      .error .notFound :=
  (review_spec ⟨[acct1, acct2], [⟨7, 1, 2, .accepted⟩]⟩ 2 "accepted" 7 (by decide)
      (by unfold NoSelfLoops; decide)).2.1 (by decide)

/-- Characterisation of the feed's hide set: exactly the ids written on
some request that involves the caller. -/
lemma mem_hideUsersFromFeed {db : DB} {c x : Nat} :
    x ∈ hideUsersFromFeed db c ↔
    ∃ r ∈ db.requests, (r.senderId = c ∨ r.receiverId = c) ∧
      (x = r.senderId ∨ x = r.receiverId) := by
  simp only [hideUsersFromFeed, List.mem_flatMap, List.mem_filter, Bool.or_eq_true,
    beq_iff_eq, List.mem_cons, List.mem_singleton, List.not_mem_nil, or_false]
  constructor
  · rintro ⟨r, ⟨hr, hc⟩, hx⟩
    exact ⟨r, hr, hc, hx⟩
  · rintro ⟨r, hr, hc, hx⟩
    exact ⟨r, ⟨hr, hc⟩, hx⟩

/-- Claim C4: whenever a feed request succeeds, no returned entry is the
caller, and no returned entry is the sender or the receiver of any
stored request that involves the caller, whatever its status. -/
theorem feed_excludes (db : DB) (callerId : Nat) (page lim : Option Int)
    (out : List SafeAccount) (hok : feed db callerId page lim = .ok out) :
    ∀ s ∈ out, s.id ≠ callerId ∧
      ∀ r ∈ db.requests, (r.senderId = callerId ∨ r.receiverId = callerId) →
        s.id ≠ r.senderId ∧ s.id ≠ r.receiverId := by
  have hq : ∃ skip l, out = feedQuery db callerId skip l := by
    unfold feed at hok
    cases h : effectiveLimit lim with
    | error e => rw [h] at hok; cases hok
    | ok l =>
      rw [h] at hok
      exact ⟨_, _, (Except.ok.inj hok).symm⟩
  obtain ⟨skip, l, rfl⟩ := hq
  intro s hs
  simp only [feedQuery, List.mem_map] at hs
  obtain ⟨u, hu, rfl⟩ := hs
  have hu2 : u ∈ db.users.filter (fun u =>
      !((hideUsersFromFeed db callerId).contains u.id) && u.id != callerId) :=
    List.drop_subset _ _ (List.take_subset _ _ hu)
  rw [List.mem_filter] at hu2
  obtain ⟨-, hcond⟩ := hu2
  simp only [Bool.and_eq_true, Bool.not_eq_true', bne_iff_ne, ne_eq] at hcond
  obtain ⟨hhide, hne⟩ := hcond
  have hnotmem : u.id ∉ hideUsersFromFeed db callerId := by simpa using hhide
  refine ⟨hne, ?_⟩
  intro r hr hinv
  constructor
  · intro heq
    exact hnotmem (mem_hideUsersFromFeed.mpr ⟨r, hr, hinv, Or.inl heq⟩)
  · intro heq
    exact hnotmem (mem_hideUsersFromFeed.mpr ⟨r, hr, hinv, Or.inr heq⟩)

/-- Claim C4 witness: with caller 1 related to 2, a successful feed call
(limit parameter 60) returns only account 3, which is neither the
caller nor a party of the stored request. -/
theorem feed_excludes_witness :
    (safeProject acct3).id ≠ 1 ∧
    ((safeProject acct3).id ≠ 1 ∧ (safeProject acct3).id ≠ 2) := by
  have h := feed_excludes ⟨[acct1, acct2, acct3], [⟨7, 1, 2, .interested⟩]⟩ 1 none (some 60)
    [safeProject acct3] rfl (safeProject acct3) (by simp)
  exact ⟨h.1, h.2 ⟨7, 1, 2, .interested⟩ (by simp) (Or.inl rfl)⟩

/-- Claim C5: the feed's limit computation diverges from the specified
pagination: a limit above 50 becomes 10 rather than being capped at 50,
and a limit of 20 or an unspecified limit makes the whole request throw
(the undeclared identifier `limitl`) instead of applying a default. -/
theorem feed_limit_divergence :
    effectiveLimit (some 60) = .ok 10 ∧
    effectiveLimit (some 20) = .error .referenceError ∧
    effectiveLimit none = .error .referenceError ∧
    feed ⟨[acct1, acct2], []⟩ 1 (some 1) (some 20) = .error .referenceError ∧
    feed ⟨[acct1, acct2], []⟩ 1 (some 1) none = .error .referenceError :=
  ⟨rfl, rfl, rfl, rfl, rfl⟩

/-- Claim C6 counterexample: with accepted records stored in both
directions for the pair (1,2), the connections listing for caller 1
returns account 2 twice — the handler applies no deduplication. -/
theorem listConnections_duplicates :
    listConnections ⟨[acct1, acct2], [⟨10, 1, 2, .accepted⟩, ⟨11, 2, 1, .accepted⟩]⟩ 1 =
      [2, 2] ∧
    (listConnections ⟨[acct1, acct2],
        [⟨10, 1, 2, .accepted⟩, ⟨11, 2, 1, .accepted⟩]⟩ 1).count 2 = 2 :=
  ⟨rfl, rfl⟩

/-- Claim C6 (amended): the connections listing returns one entry per
accepted record involving the caller, namely the other party, so its
members are exactly the accounts linked to the caller by an accepted
record; it is duplicate-free whenever the store keeps at most one
record per unordered pair (the invariant the send path maintains),
though a store holding both directions would yield duplicates. -/
theorem listConnections_spec (db : DB) (c : Nat)
    (hnd : db.requests.Nodup) (hpu : PairUnique db) :
    (∀ x, x ∈ listConnections db c ↔
      ∃ r ∈ db.requests, r.status = RequestStatus.accepted ∧
        ((r.senderId = c ∧ r.receiverId = x) ∨ (r.receiverId = c ∧ r.senderId = x))) ∧
    (listConnections db c).Nodup := by
  constructor
  · intro x
    simp only [listConnections, List.mem_map, List.mem_filter, Bool.or_eq_true,
      Bool.and_eq_true, beq_iff_eq, decide_eq_true_eq]
    constructor
    · rintro ⟨r, ⟨hr, hcond⟩, rfl⟩
      rcases hcond with ⟨hrecv, hacc⟩ | ⟨hsend, hacc⟩
      · by_cases hs : r.senderId = c
        · exact ⟨r, hr, hacc, Or.inl ⟨hs, by simp [otherParty, hs]⟩⟩
        · refine ⟨r, hr, hacc, Or.inr ⟨hrecv, ?_⟩⟩
          simp [otherParty, hs]
      · exact ⟨r, hr, hacc, Or.inl ⟨hsend, by simp [otherParty, hsend]⟩⟩
    · rintro ⟨r, hr, hacc, hcase⟩
      rcases hcase with ⟨hs, hrecv⟩ | ⟨hrecv, hs⟩
      · exact ⟨r, ⟨hr, Or.inr ⟨hs, hacc⟩⟩, by simp [otherParty, hs, hrecv]⟩
      · refine ⟨r, ⟨hr, Or.inl ⟨hrecv, hacc⟩⟩, ?_⟩
        by_cases hsc : r.senderId = c
        · have hx : x = c := by rw [← hs, hsc]
          simp [otherParty, hsc, hrecv, hx]
        · unfold otherParty
          rw [if_neg (by simp [hsc])]
          exact hs
  · refine List.Nodup.map_on ?_ (hnd.filter _)
    intro r1 h1 r2 h2 heq
    rw [List.mem_filter] at h1 h2
    obtain ⟨h1m, h1c⟩ := h1
    obtain ⟨h2m, h2c⟩ := h2
    simp only [Bool.or_eq_true, Bool.and_eq_true, beq_iff_eq, decide_eq_true_eq] at h1c h2c
    unfold otherParty at heq
    by_cases s1 : r1.senderId = c <;> by_cases s2 : r2.senderId = c
    · rw [if_pos (by simp [s1]), if_pos (by simp [s2])] at heq
      exact hpu r1 h1m r2 h2m (Or.inl ⟨s1.trans s2.symm, heq⟩)
    · rw [if_pos (by simp [s1]), if_neg (by simp [s2])] at heq
      have hr2 : r2.receiverId = c := by
        rcases h2c with ⟨h, -⟩ | ⟨h, -⟩
        · exact h
        · exact absurd h s2
      exact hpu r1 h1m r2 h2m (Or.inr ⟨s1.trans hr2.symm, heq⟩)
    · rw [if_neg (by simp [s1]), if_pos (by simp [s2])] at heq
      have hr1 : r1.receiverId = c := by
        rcases h1c with ⟨h, -⟩ | ⟨h, -⟩
        · exact h
        · exact absurd h s1
      exact hpu r1 h1m r2 h2m (Or.inr ⟨heq, hr1.trans s2.symm⟩)
    · rw [if_neg (by simp [s1]), if_neg (by simp [s2])] at heq
      have hr1 : r1.receiverId = c := by
        rcases h1c with ⟨h, -⟩ | ⟨h, -⟩
        · exact h
        · exact absurd h s1
      have hr2 : r2.receiverId = c := by
        rcases h2c with ⟨h, -⟩ | ⟨h, -⟩
        · exact h
        · exact absurd h s2
      exact hpu r1 h1m r2 h2m (Or.inl ⟨heq, hr1.trans hr2.symm⟩)

/-- Claim C6 witness: one accepted record between 1 and 2 puts exactly
account 2, once, in caller 1's connections. -/
theorem listConnections_spec_witness :
    2 ∈ listConnections ⟨[acct1, acct2], [⟨10, 1, 2, .accepted⟩]⟩ 1 ∧
    (listConnections ⟨[acct1, acct2], [⟨10, 1, 2, .accepted⟩]⟩ 1).Nodup := by
  have h := listConnections_spec ⟨[acct1, acct2], [⟨10, 1, 2, .accepted⟩]⟩ 1
    (by decide) (by unfold PairUnique; decide)
  exact ⟨(h.1 2).mpr ⟨⟨10, 1, 2, .accepted⟩, by simp, rfl, Or.inl ⟨rfl, rfl⟩⟩, h.2⟩

/-- The update endpoint can never reach the store write: when the
payload passes the allow-list check, the `skills` key is necessarily
absent (it is not in `ALLOWED_UPDATES`), so `data?.skills.length`
throws. -/
lemma patchUserCheck_never_ok (data : List (String × FieldValue)) :
    patchUserCheck data ≠ .ok := by
  unfold patchUserCheck
  by_cases hall : data.all (fun kv => allowedUpdates.contains kv.1) = true
  · rw [if_pos hall]
    cases hsk : lookupField "skills" data with
    | none => simp
    | some v =>
      exfalso
      unfold lookupField at hsk
      rw [Option.map_eq_some'] at hsk
      obtain ⟨kv, hkv, -⟩ := hsk
      have hmem := List.mem_of_find?_eq_some hkv
      have hkey := List.find?_some hkv
      rw [beq_iff_eq] at hkey
      rw [List.all_eq_true] at hall
      have := hall kv hmem
      rw [hkey] at this
      simp [allowedUpdates] at this
  · rw [if_neg hall]
    simp

/-- Claim C7: the account update endpoint diverges from the specified
allow-list behaviour: a payload of allowed fields without `skills`
(here `{age: 25}`, also with `photoUrl`) throws a TypeError instead of
succeeding, and a `skills` payload is rejected as a disallowed field
because `ALLOWED_UPDATES` omits `skills`. -/
theorem patchUser_diverges :
    patchUserCheck [("age", FieldValue.numv 25)] = .typeError ∧
    patchUserCheck [("photoUrl", FieldValue.strv "u"), ("age", FieldValue.numv 25)] =
      .typeError ∧
    patchUserCheck [("skills", FieldValue.arrv [])] = .updateNotAllowed ∧
    validateEditProfileData ["gender"] = false :=
  ⟨rfl, rfl, rfl, rfl⟩

/-- Claim C8 counterexample: the profile router registers DELETE /user
and PATCH /user/:userId without the `userAuth` middleware, so not every
inbound operation resolves the acting account through the token
verifier. -/
theorem unauthenticated_routes_exist :
    (⟨.delete, "/user", false⟩ : RouteEntry) ∈ profileRouterRoutes ∧
    (⟨.patch, "/user/:userId", false⟩ : RouteEntry) ∈ profileRouterRoutes ∧
    profileRouterRoutes.all (fun e => e.usesUserAuth) = false :=
  ⟨by simp [profileRouterRoutes], by simp [profileRouterRoutes], rfl⟩

/-- Claim C8 (amended): the token verifier fails closed — it admits a
request only for a token that verifies and names a stored account, and
a missing, invalid, or expired token always yields the authentication
failure, never a default identity — and every connection-lifecycle
route (the request and user routers) runs it; but `DELETE /user` and
`PATCH /user/:userId` on the profile router bypass it. -/
theorem auth_fails_closed (db : DB) (tok : TokenState) :
    (∀ u, userAuth db tok = .ok u → ∃ uid, tok = .validFor uid ∧ u ∈ db.users ∧ u.id = uid) ∧
    ((tok = .missing ∨ tok = .invalid ∨ tok = .expired) →
      userAuth db tok = .error .authFailure) ∧
    (∀ e ∈ requestRouterRoutes ++ userRouterRoutes, e.usesUserAuth = true) ∧
    (⟨.delete, "/user", false⟩ : RouteEntry) ∈ profileRouterRoutes := by
  refine ⟨?_, ?_, by decide, by simp [profileRouterRoutes]⟩
  · intro u hok
    cases tok with
    | missing => cases hok
    | invalid => cases hok
    | expired => cases hok
    | validFor uid =>
      cases hfind : db.users.find? (fun u => u.id == uid) with
      | none => simp [userAuth, hfind] at hok
      | some u0 =>
        have heq : userAuth db (.validFor uid) = .ok u0 := by simp [userAuth, hfind]
        rw [heq] at hok
        have hu := Except.ok.inj hok
        subst hu
        have hid := List.find?_some hfind
        rw [beq_iff_eq] at hid
        exact ⟨uid, rfl, List.mem_of_find?_eq_some hfind, hid⟩
  · rintro (rfl | rfl | rfl) <;> rfl

/-- Claim C8 witness: a request with no token cookie is rejected. -/
theorem auth_fails_closed_witness :
    userAuth ⟨[acct1], []⟩ .missing = .error .authFailure :=
  (auth_fails_closed ⟨[acct1], []⟩ .missing).2.1 (Or.inl rfl)

/-- Claim C9: a successful send appends exactly the one new request
document and leaves the user collection alone; a successful review
rewrites exactly the matched request document, changing only its
status field (id, sender and receiver are preserved), and every other
document — user or request — is untouched. -/
theorem mutation_frame (db : DB) (senderId receiverId reviewerId : Nat)
    (s1 s2 : String) (newId requestId : Nat) :
    (∀ db2 r2, sendRequest db senderId receiverId s1 newId = .ok (db2, r2) →
      db2.users = db.users ∧ db2.requests = db.requests ++ [r2]) ∧
    (∀ db2 r2, reviewRequest db reviewerId s2 requestId = .ok (db2, r2) →
      db2.users = db.users ∧
      ∃ r0 ∈ db.requests, r0.id = requestId ∧
        r2.id = r0.id ∧ r2.senderId = r0.senderId ∧ r2.receiverId = r0.receiverId ∧
        r2.status = parseStatus s2 ∧
        db2.requests = db.requests.map (fun q => if q.id == requestId then r2 else q) ∧
        ∀ q ∈ db.requests, q.id ≠ requestId → q ∈ db2.requests) := by
  constructor
  · intro db2 r2 hok
    by_cases hs : s1 ∈ sendAllowedStatus
    · cases hfind : db.users.find? (fun u => u.id == receiverId) with
      | none => simp [sendRequest, hs, hfind] at hok
      | some u =>
        cases hex : (db.requests.find? (pairMatches senderId receiverId)).isSome with
        | true => simp [sendRequest, hs, hfind, hex] at hok
        | false =>
          cases hself : senderId == receiverId with
          | true => simp [sendRequest, hs, hfind, hex, hself] at hok
          | false =>
            have hokeq : sendRequest db senderId receiverId s1 newId =
                .ok ({ db with requests :=
                      db.requests ++ [⟨newId, senderId, receiverId, parseStatus s1⟩] },
                    ⟨newId, senderId, receiverId, parseStatus s1⟩) := by
              simp [sendRequest, hs, hfind, hex, hself]
            rw [hokeq] at hok
            have hpair := Except.ok.inj hok
            have hdb2 : db2 = { db with requests :=
                db.requests ++ [⟨newId, senderId, receiverId, parseStatus s1⟩] } :=
              (congrArg Prod.fst hpair).symm
            have hr2 : r2 = ⟨newId, senderId, receiverId, parseStatus s1⟩ :=
              (congrArg Prod.snd hpair).symm
            subst hdb2
            subst hr2
            exact ⟨rfl, rfl⟩
    · simp [sendRequest, hs] at hok
  · intro db2 r2 hok
    by_cases hs : s2 ∈ reviewAllowedStatus
    · cases hfind : db.requests.find? (fun r =>
          r.id == requestId && r.receiverId == reviewerId &&
          decide (r.status = RequestStatus.interested)) with
      | none => simp [reviewRequest, hs, hfind] at hok
      | some r0 =>
        cases hself : r0.senderId == r0.receiverId with
        | true => simp [reviewRequest, hs, hfind, hself] at hok
        | false =>
          have hokeq : reviewRequest db reviewerId s2 requestId =
              .ok ({ db with requests := db.requests.map (fun q =>
                      if q.id == r0.id then { r0 with status := parseStatus s2 } else q) },
                  { r0 with status := parseStatus s2 }) := by
            simp [reviewRequest, hs, hfind, hself]
          rw [hokeq] at hok
          have hpair := Except.ok.inj hok
          have hdb2 : db2 = { db with requests := db.requests.map (fun q =>
              if q.id == r0.id then { r0 with status := parseStatus s2 } else q) } :=
            (congrArg Prod.fst hpair).symm
          have hr2 : r2 = { r0 with status := parseStatus s2 } :=
            (congrArg Prod.snd hpair).symm
          have hid : r0.id = requestId := by
            have h := List.find?_some hfind
            simp only [Bool.and_eq_true, beq_iff_eq] at h
            exact h.1.1
          subst hdb2
          subst hr2
          subst hid
          refine ⟨rfl, r0, List.mem_of_find?_eq_some hfind, rfl, rfl, rfl, rfl, rfl, rfl, ?_⟩
          intro q hq hne
          simp only [List.mem_map]
          refine ⟨q, hq, ?_⟩
          rw [if_neg (by simpa using hne)]
    · simp [reviewRequest, hs] at hok

/-- Claim C9 witness: the concrete successful send from the two-account
store appends its one record and leaves the users untouched. -/
theorem mutation_frame_witness :
    (⟨[acct1, acct2], [⟨7, 1, 2, RequestStatus.interested⟩]⟩ : DB).users =
      (⟨[acct1, acct2], []⟩ : DB).users ∧
    (⟨[acct1, acct2], [⟨7, 1, 2, RequestStatus.interested⟩]⟩ : DB).requests =
      (⟨[acct1, acct2], []⟩ : DB).requests ++ [⟨7, 1, 2, RequestStatus.interested⟩] :=
  (mutation_frame ⟨[acct1, acct2], []⟩ 1 2 2 "interested" "accepted" 7 7).1
    ⟨[acct1, acct2], [⟨7, 1, 2, RequestStatus.interested⟩]⟩
    ⟨7, 1, 2, RequestStatus.interested⟩ rfl

/-- Claim C10: GET /feed on the profile router returns every stored
account document — full fields, credential hash included — with no
exclusion of the caller or of related accounts, no safe projection and
no pagination; the route is registered (with `userAuth`) alongside
GET /user/feed. -/
theorem profile_feed_unrestricted (db : DB) (caller : Account) :
    profileFeed db caller = db.users ∧
    (caller ∈ db.users → caller ∈ profileFeed db caller) ∧
    (profileFeed db caller).map Account.password = db.users.map Account.password ∧
    (⟨.get, "/feed", true⟩ : RouteEntry) ∈ profileRouterRoutes :=
  ⟨rfl, fun h => h, rfl, by simp [profileRouterRoutes]⟩

/-- Claim C10 witness: the caller's own full document comes back in the
profile feed. -/
theorem profile_feed_unrestricted_witness :
    profileFeed ⟨[acct1], []⟩ acct1 = [acct1] ∧
    acct1 ∈ profileFeed ⟨[acct1], []⟩ acct1 :=
  ⟨(profile_feed_unrestricted ⟨[acct1], []⟩ acct1).1,
   (profile_feed_unrestricted ⟨[acct1], []⟩ acct1).2.1 (by simp)⟩
